import Mathlib

/-!
Verification of the instruction-encoding and cryptographic subsystem of a
Solana-style HTTP service (`src/handlers.rs`, `src/models.rs`, `src/utils.rs`).

The development shallowly embeds the Rust source: bytes are `Nat` values
below 256 in `List Nat`, public keys are 32-byte lists, requests and
responses mirror the `serde` structures of `models.rs`, and each handler of
`handlers.rs` becomes a pure Lean function on its request record.  External
cryptographic primitives (ed25519 key derivation, signing, verification,
curve-point tests, and the hash used by derived addresses) come from
third-party crates; they are passed as explicit function parameters so that
every theorem quantifies over their behaviour.
-/

namespace SuperdevServer

/-! ### Positional number codecs

`digitsToNat` and `natToDigits` convert between big-endian digit lists in an
arbitrary base and natural numbers; base 256 gives byte strings, base 58 the
digit strings used by base58 text.
-/

def digitsToNat (b : Nat) (ds : List Nat) : Nat :=
  ds.foldl (fun acc d => acc * b + d) 0

def natToDigitsGo (b : Nat) : Nat → Nat → List Nat
  | 0, _ => []
  | fuel + 1, n => if n = 0 then [] else natToDigitsGo b fuel (n / b) ++ [n % b]

def natToDigits (b n : Nat) : List Nat := natToDigitsGo b n n

theorem natToDigitsGo_zero (b : Nat) : ∀ fuel, natToDigitsGo b fuel 0 = [] := by
  intro fuel
  cases fuel with
  | zero => rfl
  | succ m => simp [natToDigitsGo]

theorem natToDigitsGo_stable (b : Nat) (hb : 2 ≤ b) :
    ∀ fuel₁ fuel₂ n, n ≤ fuel₁ → n ≤ fuel₂ →
      natToDigitsGo b fuel₁ n = natToDigitsGo b fuel₂ n := by
  intro fuel₁
  induction fuel₁ with
  | zero =>
    intro fuel₂ n h1 _
    have : n = 0 := Nat.le_zero.mp h1
    subst this
    rw [natToDigitsGo_zero, natToDigitsGo_zero]
  | succ m ih =>
    intro fuel₂ n h1 h2
    by_cases hn : n = 0
    · subst hn
      rw [natToDigitsGo_zero, natToDigitsGo_zero]
    · cases fuel₂ with
      | zero => omega
      | succ m₂ =>
        simp only [natToDigitsGo, hn, if_false]
        have hdiv : n / b < n := Nat.div_lt_self (Nat.pos_of_ne_zero hn) (by omega)
        rw [ih m₂ (n / b) (by omega) (by omega)]

/-- The defining recurrence of `natToDigits` for a base of at least two. -/
theorem natToDigits_eq (b : Nat) (hb : 2 ≤ b) (n : Nat) :
    natToDigits b n = if n = 0 then [] else natToDigits b (n / b) ++ [n % b] := by
  by_cases hn : n = 0
  · subst hn
    simp [natToDigits, natToDigitsGo_zero]
  · simp only [hn, if_false]
    unfold natToDigits
    cases n with
    | zero => exact absurd rfl hn
    | succ m =>
      simp only [natToDigitsGo, Nat.succ_ne_zero, if_false]
      have hdiv : (m + 1) / b < m + 1 := Nat.div_lt_self (by omega) (by omega)
      rw [natToDigitsGo_stable b hb m ((m + 1) / b) ((m + 1) / b) (by omega) (by omega)]

/-- A digit list with no leading zero digit. -/
def noLeadZero : List Nat → Bool
  | 0 :: _ => false
  | _ => true

/-- Number of leading zero digits (for base58, leading zero bytes map to the
character for digit zero and back). -/
def countLeadZero : List Nat → Nat
  | [] => 0
  | d :: t => if d = 0 then countLeadZero t + 1 else 0

theorem digitsToNat_aux_ge (b : Nat) (hb : 1 ≤ b) (t : List Nat) :
    ∀ acc, acc ≤ t.foldl (fun acc d => acc * b + d) acc := by
  induction t with
  | nil => intro acc; simp
  | cons d t ih =>
    intro acc
    have h1 : acc ≤ acc * b + d := by
      calc acc = acc * 1 := (Nat.mul_one acc).symm
        _ ≤ acc * b := Nat.mul_le_mul_left acc hb
        _ ≤ acc * b + d := Nat.le_add_right _ _
    calc acc ≤ acc * b + d := h1
      _ ≤ t.foldl (fun acc d => acc * b + d) (acc * b + d) := ih _
      _ = (d :: t).foldl (fun acc d => acc * b + d) acc := by simp [List.foldl_cons]

theorem digitsToNat_pos (b : Nat) (hb : 1 ≤ b) (h : Nat) (t : List Nat) (hh : h ≠ 0) :
    0 < digitsToNat b (h :: t) := by
  have : h ≤ digitsToNat b (h :: t) := by
    unfold digitsToNat
    have := digitsToNat_aux_ge b hb t h
    simpa using this
  omega

theorem digitsToNat_append_single (b : Nat) (ds : List Nat) (d : Nat) :
    digitsToNat b (ds ++ [d]) = digitsToNat b ds * b + d := by
  unfold digitsToNat
  rw [List.foldl_append]
  simp

theorem digitsToNat_natToDigits (b : Nat) (hb : 2 ≤ b) :
    ∀ n, digitsToNat b (natToDigits b n) = n := by
  intro n
  induction n using Nat.strong_induction_on with
  | _ n ih =>
    rw [natToDigits_eq b hb n]
    by_cases h : n = 0
    · simp [h, digitsToNat]
    · simp only [h, if_false]
      rw [digitsToNat_append_single,
        ih (n / b) (Nat.div_lt_self (Nat.pos_of_ne_zero h) (by omega))]
      exact Nat.div_add_mod' n b

theorem natToDigits_lt (b : Nat) (hb : 2 ≤ b) :
    ∀ n, ∀ d ∈ natToDigits b n, d < b := by
  intro n
  induction n using Nat.strong_induction_on with
  | _ n ih =>
    rw [natToDigits_eq b hb n]
    by_cases h : n = 0
    · simp [h]
    · simp only [h, if_false]
      intro d hd
      rcases List.mem_append.mp hd with hd | hd
      · exact ih (n / b) (Nat.div_lt_self (Nat.pos_of_ne_zero h) (by omega)) d hd
      · simp only [List.mem_singleton] at hd
        subst hd
        exact Nat.mod_lt _ (by omega)

theorem noLeadZero_append (l l' : List Nat) (hl : l ≠ []) :
    noLeadZero (l ++ l') = noLeadZero l := by
  cases l with
  | nil => exact absurd rfl hl
  | cons h t => cases h <;> simp [noLeadZero]

theorem natToDigits_noLeadZero (b : Nat) (hb : 2 ≤ b) :
    ∀ n, noLeadZero (natToDigits b n) = true := by
  intro n
  induction n using Nat.strong_induction_on with
  | _ n ih =>
    rw [natToDigits_eq b hb n]
    by_cases h : n = 0
    · simp [h, noLeadZero]
    · simp only [h, if_false]
      by_cases hsmall : n < b
      · have hdiv : n / b = 0 := Nat.div_eq_of_lt hsmall
        have hmod : n % b = n := Nat.mod_eq_of_lt hsmall
        rw [hdiv, hmod, natToDigits_eq b hb 0]
        simp only [if_true, List.nil_append, if_pos rfl]
        cases hn : n with
        | zero => exact absurd hn h
        | succ m => simp [noLeadZero]
      · have hpos : n / b ≠ 0 := by
          have := Nat.div_pos (by omega : b ≤ n) (by omega : 0 < b)
          omega
        have hne : natToDigits b (n / b) ≠ [] := by
          intro hnil
          have := digitsToNat_natToDigits b hb (n / b)
          rw [hnil] at this
          simp [digitsToNat] at this
          omega
        rw [noLeadZero_append _ _ hne]
        exact ih (n / b) (Nat.div_lt_self (Nat.pos_of_ne_zero h) (by omega))

theorem natToDigits_digitsToNat (b : Nat) (hb : 2 ≤ b) :
    ∀ ds, (∀ d ∈ ds, d < b) → noLeadZero ds = true →
      natToDigits b (digitsToNat b ds) = ds := by
  intro ds
  induction ds using List.reverseRecOn with
  | nil =>
    intro _ _
    rw [show digitsToNat b [] = 0 from rfl, natToDigits_eq b hb 0]
    simp
  | append_singleton xs d ih =>
    intro hlt hnz
    rw [digitsToNat_append_single]
    have hd : d < b := hlt d (by simp)
    cases xs with
    | nil =>
      simp only [digitsToNat, List.foldl_nil, Nat.zero_mul, Nat.zero_add]
      have hdne : d ≠ 0 := by
        intro h0
        subst h0
        simp [noLeadZero] at hnz
      rw [natToDigits_eq b hb d]
      simp only [hdne, if_false]
      rw [Nat.div_eq_of_lt hd, Nat.mod_eq_of_lt hd, natToDigits_eq b hb 0]
      simp
    | cons x t =>
      have hxne : x ≠ 0 := by
        intro h0
        subst h0
        simp [noLeadZero] at hnz
      have hpos : 0 < digitsToNat b (x :: t) := digitsToNat_pos b (by omega) x t hxne
      have hxt : noLeadZero (x :: t) = true := by
        cases x with
        | zero => exact absurd rfl hxne
        | succ m => simp [noLeadZero]
      have hlt' : ∀ e ∈ x :: t, e < b := fun e he => hlt e (List.mem_append_left _ he)
      rw [natToDigits_eq b hb]
      have hne0 : digitsToNat b (x :: t) * b + d ≠ 0 := by
        have : 0 < digitsToNat b (x :: t) * b := Nat.mul_pos hpos (by omega)
        omega
      simp only [hne0, if_false]
      have hdivq : (digitsToNat b (x :: t) * b + d) / b = digitsToNat b (x :: t) := by
        rw [Nat.mul_comm, Nat.mul_add_div (by omega), Nat.div_eq_of_lt hd]
        omega
      have hmodq : (digitsToNat b (x :: t) * b + d) % b = d := by
        rw [Nat.mul_comm, Nat.mul_add_mod, Nat.mod_eq_of_lt hd]
      rw [hdivq, hmodq, ih hlt' hxt]

theorem digitsToNat_replicate_zero (b z : Nat) (l : List Nat) :
    digitsToNat b (List.replicate z 0 ++ l) = digitsToNat b l := by
  induction z with
  | zero => simp
  | succ m ih =>
    rw [List.replicate_succ, List.cons_append]
    unfold digitsToNat at *
    simpa using ih

theorem countLeadZero_replicate_zero (z : Nat) (l : List Nat) :
    countLeadZero (List.replicate z 0 ++ l) = z + countLeadZero l := by
  induction z with
  | zero => simp
  | succ m ih =>
    rw [List.replicate_succ, List.cons_append]
    simp [countLeadZero, ih]
    omega

theorem countLeadZero_of_noLeadZero (l : List Nat) (h : noLeadZero l = true) :
    countLeadZero l = 0 := by
  cases l with
  | nil => rfl
  | cons x t =>
    cases x with
    | zero => simp [noLeadZero] at h
    | succ m => simp [countLeadZero]

theorem take_countLeadZero (l : List Nat) :
    l.take (countLeadZero l) = List.replicate (countLeadZero l) 0 := by
  induction l with
  | nil => simp [countLeadZero]
  | cons x t ih =>
    by_cases hx : x = 0
    · subst hx
      simp [countLeadZero, List.replicate_succ, ih]
    · simp [countLeadZero, hx]

theorem drop_countLeadZero_noLeadZero (l : List Nat) :
    noLeadZero (l.drop (countLeadZero l)) = true := by
  induction l with
  | nil => simp [countLeadZero, noLeadZero]
  | cons x t ih =>
    by_cases hx : x = 0
    · subst hx
      simpa [countLeadZero] using ih
    · cases x with
      | zero => exact absurd rfl hx
      | succ m => simp [countLeadZero, noLeadZero]

theorem replicate_append_drop_countLeadZero (l : List Nat) :
    List.replicate (countLeadZero l) 0 ++ l.drop (countLeadZero l) = l := by
  rw [← take_countLeadZero]
  exact List.take_append_drop _ l

/-! ### Base58 codec

Bitcoin-style base58 as used by the `bs58` crate: the 58-character alphabet
excludes `0`, `O`, `I` and `l`; leading zero bytes map to leading alphabet
digit-zero characters.
-/

def b58alphabet : List Char :=
  ['1', '2', '3', '4', '5', '6', '7', '8', '9',
   'A', 'B', 'C', 'D', 'E', 'F', 'G', 'H', 'J', 'K', 'L', 'M', 'N',
   'P', 'Q', 'R', 'S', 'T', 'U', 'V', 'W', 'X', 'Y', 'Z',
   'a', 'b', 'c', 'd', 'e', 'f', 'g', 'h', 'i', 'j', 'k', 'm', 'n', 'o',
   'p', 'q', 'r', 's', 't', 'u', 'v', 'w', 'x', 'y', 'z']

def b58char (d : Nat) : Char := b58alphabet.getD d '1'

def b58digitAux (c : Char) : List Char → Nat → Option Nat
  | [], _ => none
  | a :: rest, i => if a = c then some i else b58digitAux c rest (i + 1)

def b58digit (c : Char) : Option Nat := b58digitAux c b58alphabet 0

theorem b58digit_b58char : ∀ d : Fin 58, b58digit (b58char d.val) = some d.val := by
  decide

theorem b58char_ne_one : ∀ d : Fin 58, d.val ≠ 0 → b58char d.val ≠ '1' := by
  decide

def encodeBase58 (bs : List Nat) : String :=
  String.mk (List.replicate (countLeadZero bs) '1' ++
    (natToDigits 58 (digitsToNat 256 bs)).map b58char)

/-- Fail-fast traversal: decode every element or report the first bad one,
exactly as the Rust decoders iterate over characters. -/
def optMap {α β : Type} (f : α → Option β) : List α → Option (List β)
  | [] => some []
  | a :: t =>
    match f a, optMap f t with
    | some b, some bt => some (b :: bt)
    | _, _ => none

def decodeBase58 (s : String) : Option (List Nat) :=
  match optMap b58digit s.data with
  | none => none
  | some ds =>
      some (List.replicate (countLeadZero ds) 0 ++ natToDigits 256 (digitsToNat 58 ds))

theorem optMap_b58digit_replicate_one (z : Nat) :
    optMap b58digit (List.replicate z '1') = some (List.replicate z 0) := by
  induction z with
  | zero => rfl
  | succ m ih =>
    rw [List.replicate_succ, List.replicate_succ]
    unfold optMap
    rw [ih]
    rfl

theorem optMap_b58digit_map_b58char (ds : List Nat) (h : ∀ d ∈ ds, d < 58) :
    optMap b58digit (ds.map b58char) = some ds := by
  induction ds with
  | nil => rfl
  | cons d t ih =>
    rw [List.map_cons]
    unfold optMap
    rw [b58digit_b58char ⟨d, h d (by simp)⟩, ih (fun e he => h e (by simp [he]))]

theorem optMap_append {α β : Type} (f : α → Option β) (l₁ l₂ : List α)
    (r₁ r₂ : List β) (h₁ : optMap f l₁ = some r₁) (h₂ : optMap f l₂ = some r₂) :
    optMap f (l₁ ++ l₂) = some (r₁ ++ r₂) := by
  induction l₁ generalizing r₁ with
  | nil =>
    simp only [optMap, Option.some.injEq] at h₁
    subst h₁
    simpa using h₂
  | cons a t ih =>
    unfold optMap at h₁
    cases hfa : f a with
    | none => rw [hfa] at h₁; simp at h₁
    | some b =>
      rw [hfa] at h₁
      cases hft : optMap f t with
      | none => rw [hft] at h₁; simp at h₁
      | some rt =>
        rw [hft] at h₁
        simp only [Option.some.injEq] at h₁
        subst h₁
        rw [List.cons_append]
        unfold optMap
        rw [hfa, ih rt hft]
        simp

/-- Base58 decode is a left inverse of base58 encode on byte strings.  This is
the `encodeBase58`/`decodeBase58` round trip that key and signature text relies
on. -/
theorem decodeBase58_encodeBase58 (bs : List Nat) (h : ∀ x ∈ bs, x < 256) :
    decodeBase58 (encodeBase58 bs) = some bs := by
  have hds58 : ∀ d ∈ natToDigits 58 (digitsToNat 256 bs), d < 58 :=
    natToDigits_lt 58 (by omega) _
  have h1 : optMap b58digit (List.replicate (countLeadZero bs) '1') =
      some (List.replicate (countLeadZero bs) 0) :=
    optMap_b58digit_replicate_one _
  have h2 : optMap b58digit ((natToDigits 58 (digitsToNat 256 bs)).map b58char) =
      some (natToDigits 58 (digitsToNat 256 bs)) :=
    optMap_b58digit_map_b58char _ hds58
  have hmap : optMap b58digit (List.replicate (countLeadZero bs) '1' ++
      (natToDigits 58 (digitsToNat 256 bs)).map b58char) =
      some (List.replicate (countLeadZero bs) 0 ++ natToDigits 58 (digitsToNat 256 bs)) :=
    optMap_append _ _ _ _ _ h1 h2
  unfold decodeBase58 encodeBase58
  simp only [hmap]
  have hclz : countLeadZero (List.replicate (countLeadZero bs) 0 ++
      natToDigits 58 (digitsToNat 256 bs)) = countLeadZero bs := by
    rw [countLeadZero_replicate_zero,
      countLeadZero_of_noLeadZero _ (natToDigits_noLeadZero 58 (by omega) _)]
    omega
  have hval : digitsToNat 58 (List.replicate (countLeadZero bs) 0 ++
      natToDigits 58 (digitsToNat 256 bs)) = digitsToNat 256 bs := by
    rw [digitsToNat_replicate_zero, digitsToNat_natToDigits 58 (by omega)]
  rw [hclz, hval]
  have hrest : digitsToNat 256 bs = digitsToNat 256 (bs.drop (countLeadZero bs)) := by
    conv_lhs => rw [← replicate_append_drop_countLeadZero bs]
    rw [digitsToNat_replicate_zero]
  rw [hrest,
    natToDigits_digitsToNat 256 (by omega) _
      (fun d hd => h d (List.mem_of_mem_drop hd))
      (drop_countLeadZero_noLeadZero bs),
    replicate_append_drop_countLeadZero]

/-! ### Base64 codec

RFC 4648 standard alphabet with `=` padding, as used by
`base64::engine::general_purpose::STANDARD` in `utils.rs` (strict decoding:
non-alphabet characters, bad padding or non-zero trailing bits are errors).
-/

def b64char (d : Nat) : Char :=
  if d < 26 then Char.ofNat (65 + d)
  else if d < 52 then Char.ofNat (71 + d)
  else if d < 62 then Char.ofNat (d - 4)
  else if d = 62 then '+'
  else '/'

def b64digit (c : Char) : Option Nat :=
  let n := c.toNat
  if 65 ≤ n ∧ n ≤ 90 then some (n - 65)
  else if 97 ≤ n ∧ n ≤ 122 then some (n - 71)
  else if 48 ≤ n ∧ n ≤ 57 then some (n + 4)
  else if n = 43 then some 62
  else if n = 47 then some 63
  else none

theorem b64digit_b64char : ∀ d : Fin 64, b64digit (b64char d.val) = some d.val := by
  decide

theorem b64char_ne_pad : ∀ d : Fin 64, b64char d.val ≠ '=' := by
  decide

def enc64core : List Nat → List Char
  | a :: b :: c :: rest =>
      b64char (a / 4) :: b64char (a % 4 * 16 + b / 16) ::
      b64char (b % 16 * 4 + c / 64) :: b64char (c % 64) :: enc64core rest
  | [a, b] => [b64char (a / 4), b64char (a % 4 * 16 + b / 16), b64char (b % 16 * 4), '=']
  | [a] => [b64char (a / 4), b64char (a % 4 * 16), '=', '=']
  | [] => []

def dec64core : List Char → Option (List Nat)
  | [] => some []
  | c1 :: c2 :: c3 :: c4 :: rest =>
    match b64digit c1, b64digit c2 with
    | some d1, some d2 =>
      if c3 = '=' then
        if c4 = '=' ∧ rest = [] ∧ d2 % 16 = 0 then some [d1 * 4 + d2 / 16] else none
      else
        match b64digit c3 with
        | some d3 =>
          if c4 = '=' then
            if rest = [] ∧ d3 % 4 = 0 then some [d1 * 4 + d2 / 16, d2 % 16 * 16 + d3 / 4]
            else none
          else
            match b64digit c4 with
            | some d4 =>
              (dec64core rest).map
                (fun tl => (d1 * 4 + d2 / 16) :: (d2 % 16 * 16 + d3 / 4) ::
                  (d3 % 4 * 64 + d4) :: tl)
            | none => none
        | none => none
    | _, _ => none
  | _ => none

/-- `bytes_to_base64` of `utils.rs` (`general_purpose::STANDARD.encode`). -/
def bytes_to_base64 (bs : List Nat) : String := String.mk (enc64core bs)

/-- `base64_to_bytes` of `utils.rs` (`general_purpose::STANDARD.decode`). -/
def base64_to_bytes (s : String) : Option (List Nat) := dec64core s.data

theorem dec64_enc64_aux :
    ∀ n (bs : List Nat), bs.length ≤ n → (∀ x ∈ bs, x < 256) →
      dec64core (enc64core bs) = some bs := by
  intro n
  induction n with
  | zero =>
    intro bs hlen _
    have : bs = [] := List.eq_nil_of_length_eq_zero (Nat.le_zero.mp hlen)
    subst this
    rfl
  | succ m ih =>
    intro bs hlen h
    cases bs with
    | nil => rfl
    | cons a t =>
      have ha : a < 256 := h a (by simp)
      cases t with
      | nil =>
        have h1 : b64digit (b64char (a / 4)) = some (a / 4) :=
          b64digit_b64char ⟨a / 4, by omega⟩
        have h2 : b64digit (b64char (a % 4 * 16)) = some (a % 4 * 16) :=
          b64digit_b64char ⟨a % 4 * 16, by omega⟩
        have hmod : a % 4 * 16 % 16 = 0 := Nat.mul_mod_left _ _
        simp [enc64core, dec64core, h1, h2, hmod]
        omega
      | cons b t2 =>
        have hb : b < 256 := h b (by simp)
        cases t2 with
        | nil =>
          have h1 : b64digit (b64char (a / 4)) = some (a / 4) :=
            b64digit_b64char ⟨a / 4, by omega⟩
          have h2 : b64digit (b64char (a % 4 * 16 + b / 16)) = some (a % 4 * 16 + b / 16) :=
            b64digit_b64char ⟨a % 4 * 16 + b / 16, by omega⟩
          have h3 : b64digit (b64char (b % 16 * 4)) = some (b % 16 * 4) :=
            b64digit_b64char ⟨b % 16 * 4, by omega⟩
          have hne3 : b64char (b % 16 * 4) ≠ '=' := b64char_ne_pad ⟨b % 16 * 4, by omega⟩
          have hmod : b % 16 * 4 % 4 = 0 := Nat.mul_mod_left _ _
          simp [enc64core, dec64core, h1, h2, h3, hne3, hmod]
          omega
        | cons c rest =>
          have hc : c < 256 := h c (by simp)
          have h1 : b64digit (b64char (a / 4)) = some (a / 4) :=
            b64digit_b64char ⟨a / 4, by omega⟩
          have h2 : b64digit (b64char (a % 4 * 16 + b / 16)) = some (a % 4 * 16 + b / 16) :=
            b64digit_b64char ⟨a % 4 * 16 + b / 16, by omega⟩
          have h3 : b64digit (b64char (b % 16 * 4 + c / 64)) = some (b % 16 * 4 + c / 64) :=
            b64digit_b64char ⟨b % 16 * 4 + c / 64, by omega⟩
          have h4 : b64digit (b64char (c % 64)) = some (c % 64) :=
            b64digit_b64char ⟨c % 64, by omega⟩
          have hne3 : b64char (b % 16 * 4 + c / 64) ≠ '=' :=
            b64char_ne_pad ⟨b % 16 * 4 + c / 64, by omega⟩
          have hne4 : b64char (c % 64) ≠ '=' := b64char_ne_pad ⟨c % 64, by omega⟩
          have hrest : dec64core (enc64core rest) = some rest := by
            refine ih rest ?_ (fun x hx => h x (by simp [hx]))
            simp only [List.length_cons] at hlen
            omega
          simp [enc64core, dec64core, h1, h2, h3, h4, hne3, hne4, hrest]
          omega

/-- Base64 decode is a left inverse of base64 encode on byte strings: the
`bytes_to_base64`/`base64_to_bytes` round trip used by signature text. -/
theorem base64_to_bytes_bytes_to_base64 (bs : List Nat) (h : ∀ x ∈ bs, x < 256) :
    base64_to_bytes (bytes_to_base64 bs) = some bs :=
  dec64_enc64_aux bs.length bs (Nat.le_refl _) h

/-! ### External cryptographic primitives

`handlers.rs` calls into `solana_sdk`/`ed25519-dalek` for key derivation,
signing, verification and curve-point decompression.  Those primitives are
not part of this repository; theorems quantify over them through this
record. -/

structure Ed25519 where
  /-- Derives the 32-byte public key of a 32-byte secret scalar. -/
  pubOf : List Nat → List Nat
  /-- Deterministic ed25519 signature of a message under a secret key. -/
  sign : List Nat → List Nat → List Nat
  /-- ed25519 verification: public key bytes, message bytes, signature bytes. -/
  verify : List Nat → List Nat → List Nat → Bool
  /-- Whether 32 bytes decompress to a valid curve point
  (`PublicKey::from_bytes` succeeds). -/
  onCurve : List Nat → Bool

/-- `solana_sdk::signature::Keypair`: 32-byte secret scalar plus 32-byte
public key. -/
structure Keypair where
  secret : List Nat
  public : List Nat
deriving DecidableEq

/-- `Keypair::to_bytes`: the 64-byte concatenation secret ++ public. -/
def Keypair.to_bytes (kp : Keypair) : List Nat := kp.secret ++ kp.public

/-- `Keypair::pubkey`. -/
def Keypair.pubkey (kp : Keypair) : List Nat := kp.public

/-- UTF-8 bytes of a message string (`str::as_bytes`); messages in scope are
treated code-point-wise. -/
def strBytes (s : String) : List Nat := s.data.map Char.toNat

/-! ### Data model (`models.rs`) -/

structure ApiResponse (T : Type) where
  success : Bool
  data : Option T
  error : Option String
deriving DecidableEq

structure KeypairResponse where
  pubkey : String
  secret : String
deriving DecidableEq

structure CreateTokenRequest where
  mint_authority : String
  mint : String
  decimals : Nat
deriving DecidableEq

structure MintTokenRequest where
  mint : String
  destination : String
  authority : String
  amount : Nat
deriving DecidableEq

structure SignMessageRequest where
  message : String
  secret : String
deriving DecidableEq

structure VerifyMessageRequest where
  message : String
  signature : String
  pubkey : String
deriving DecidableEq

structure SendSolRequest where
  fromAddr : String
  toAddr : String
  lamports : Nat
deriving DecidableEq

structure SendTokenRequest where
  destination : String
  mint : String
  owner : String
  amount : Nat
deriving DecidableEq

structure AccountMeta where
  pubkey : String
  is_signer : Bool
  is_writable : Bool
deriving DecidableEq

structure InstructionResponse where
  program_id : String
  accounts : List AccountMeta
  instruction_data : String
deriving DecidableEq

structure SignMessageResponse where
  signature : String
  public_key : String
  message : String
deriving DecidableEq

structure VerifyMessageResponse where
  valid : Bool
  message : String
  pubkey : String
deriving DecidableEq

/-- `validator` length check on a string field (character count between the
bounds). -/
def lenBetween (s : String) (lo hi : Nat) : Bool :=
  decide (lo ≤ s.length ∧ s.length ≤ hi)

/-- `#[validate(...)]` attributes of `CreateTokenRequest`: two length-checked
keys and `range(min = 0, max = 18)` on `decimals` (a `u8`, so the lower bound
is vacuous). -/
def CreateTokenRequest.validate (r : CreateTokenRequest) : Bool :=
  lenBetween r.mint_authority 32 44 && lenBetween r.mint 32 44 && decide (r.decimals ≤ 18)

/-- `#[validate(...)]` attributes of `MintTokenRequest`. -/
def MintTokenRequest.validate (r : MintTokenRequest) : Bool :=
  lenBetween r.mint 32 44 && lenBetween r.destination 32 44 &&
    lenBetween r.authority 32 44 && decide (1 ≤ r.amount)

/-- `#[validate(...)]` attributes of `SignMessageRequest`. -/
def SignMessageRequest.validate (r : SignMessageRequest) : Bool :=
  decide (1 ≤ r.message.length) && decide (32 ≤ r.secret.length)

/-- `#[validate(...)]` attributes of `VerifyMessageRequest`. -/
def VerifyMessageRequest.validate (r : VerifyMessageRequest) : Bool :=
  decide (1 ≤ r.message.length) && decide (1 ≤ r.signature.length) &&
    lenBetween r.pubkey 32 44

/-- `#[validate(...)]` attributes of `SendSolRequest`. -/
def SendSolRequest.validate (r : SendSolRequest) : Bool :=
  lenBetween r.fromAddr 32 44 && lenBetween r.toAddr 32 44 && decide (1 ≤ r.lamports)

/-- `#[validate(...)]` attributes of `SendTokenRequest`. -/
def SendTokenRequest.validate (r : SendTokenRequest) : Bool :=
  lenBetween r.destination 32 44 && lenBetween r.mint 32 44 &&
    lenBetween r.owner 32 44 && decide (1 ≤ r.amount)

/-! ### Key parsing and program constants (`utils.rs`) -/

/-- `base58_to_pubkey` via `Pubkey::from_str`: at most 44 characters of
base58 decoding to exactly 32 bytes. -/
def base58_to_pubkey (s : String) : Option (List Nat) :=
  if 44 < s.length then none
  else
    match decodeBase58 s with
    | none => none
    | some bs => if bs.length = 32 then some bs else none

/-- `pubkey_to_base58` (`Pubkey::to_string`). -/
def pubkey_to_base58 (pk : List Nat) : String := encodeBase58 pk

/-- `base58_to_keypair`: base58 decode, require exactly 64 bytes, then
`Keypair::from_bytes`, which splits into secret ∥ public and insists the
public half decompresses to a curve point. -/
def base58_to_keypair (ed : Ed25519) (s : String) : Option Keypair :=
  match decodeBase58 s with
  | none => none
  | some bytes =>
    if bytes.length = 64 then
      if ed.onCurve (bytes.drop 32) then some ⟨bytes.take 32, bytes.drop 32⟩ else none
    else none

/-- The system program id: 32 zero bytes
(base58 `11111111111111111111111111111111`). -/
def system_program_id : List Nat := List.replicate 32 0

/-- `spl_token::id()`. -/
def token_program_id : List Nat :=
  (decodeBase58 "TokenkegQfeZyiNwAJbNbGKPFXCWuBvf9Ss623VQ5DA").getD []

/-- Little-endian byte encoding on `k` bytes, the layout `bincode` and
`spl_token` use for `u32`/`u64` fields. -/
def leBytes (k n : Nat) : List Nat := (List.range k).map fun i => n / 256 ^ i % 256

/-- `create_transfer_instruction`: `system_instruction::transfer` serialises
`SystemInstruction::Transfer` as 4-byte little-endian discriminant 2 followed
by the 8-byte little-endian lamport amount. -/
def create_transfer_instruction (fromPk toPk : List Nat) (lamports : Nat) :
    List Nat × List Nat :=
  (system_program_id, leBytes 4 2 ++ leBytes 8 lamports)

/-- `create_mint_instruction`: `spl_token::instruction::mint_to` packs tag 7
then the 8-byte little-endian amount. -/
def create_mint_instruction (mint destination authority : List Nat) (amount : Nat) :
    List Nat × List Nat :=
  (token_program_id, 7 :: leBytes 8 amount)

/-- `create_token_transfer_instruction`: `spl_token::instruction::transfer`
packs tag 3 then the 8-byte little-endian amount. -/
def create_token_transfer_instruction (source destination owner : List Nat)
    (amount : Nat) : List Nat × List Nat :=
  (token_program_id, 3 :: leBytes 8 amount)

/-- `create_initialize_mint_instruction`: `spl_token::instruction::initialize_mint`
with freeze authority `Some(mint_authority)` packs tag 0, the decimals byte,
the 32 mint-authority bytes, then the `COption` presence byte 1 and the
32 freeze-authority bytes (the same mint authority in `utils.rs`). -/
def create_initialize_mint_instruction (mint : List Nat) (decimals : Nat)
    (mint_authority : List Nat) : List Nat × List Nat :=
  (token_program_id, 0 :: decimals :: (mint_authority ++ 1 :: mint_authority))

/-! ### Handlers (`handlers.rs`)

Each handler mirrors the Rust control flow: presentation validation first,
then key parsing in source order, then instruction construction, each failure
producing the error envelope the Rust code returns. -/

def mkError {T : Type} (msg : String) : ApiResponse T :=
  { success := false, data := none, error := some msg }

/-- `generate_keypair`, with the entropy draw and ed25519 key expansion of
`Keypair::new()` supplied as the 32-byte `seed` and `ed.pubOf`. -/
def generate_keypair (ed : Ed25519) (seed : List Nat) : ApiResponse KeypairResponse :=
  let keypair : Keypair := ⟨seed, ed.pubOf seed⟩
  { success := true
    data := some
      { pubkey := pubkey_to_base58 keypair.pubkey
        secret := encodeBase58 keypair.to_bytes }
    error := none }

def create_token (payload : CreateTokenRequest) : ApiResponse InstructionResponse :=
  if ¬ payload.validate then mkError "Validation error"
  else
    match base58_to_pubkey payload.mint_authority with
    | none => mkError "Invalid mint authority"
    | some mint_authority =>
      match base58_to_pubkey payload.mint with
      | none => mkError "Invalid mint"
      | some mint =>
        let pd := create_initialize_mint_instruction mint payload.decimals mint_authority
        { success := true
          data := some
            { program_id := pubkey_to_base58 pd.1
              accounts :=
                [ { pubkey := pubkey_to_base58 mint
                    is_signer := false
                    is_writable := true }
                , { pubkey := pubkey_to_base58 mint_authority
                    is_signer := true
                    is_writable := false } ]
              instruction_data := bytes_to_base64 pd.2 }
          error := none }

def mint_token (payload : MintTokenRequest) : ApiResponse InstructionResponse :=
  if ¬ payload.validate then mkError "Validation error"
  else
    match base58_to_pubkey payload.mint with
    | none => mkError "Invalid mint"
    | some mint =>
      match base58_to_pubkey payload.destination with
      | none => mkError "Invalid destination"
      | some destination =>
        match base58_to_pubkey payload.authority with
        | none => mkError "Invalid authority"
        | some authority =>
          let pd := create_mint_instruction mint destination authority payload.amount
          { success := true
            data := some
              { program_id := pubkey_to_base58 pd.1
                accounts :=
                  [ { pubkey := pubkey_to_base58 mint
                      is_signer := false
                      is_writable := true }
                  , { pubkey := pubkey_to_base58 destination
                      is_signer := false
                      is_writable := true }
                  , { pubkey := pubkey_to_base58 authority
                      is_signer := true
                      is_writable := false } ]
                instruction_data := bytes_to_base64 pd.2 }
            error := none }

def sign_message (ed : Ed25519) (payload : SignMessageRequest) :
    ApiResponse SignMessageResponse :=
  if ¬ payload.validate then mkError "Validation error"
  else
    match base58_to_keypair ed payload.secret with
    | none => mkError "Invalid secret key"
    | some keypair =>
      let signature := ed.sign keypair.secret (strBytes payload.message)
      { success := true
        data := some
          { signature := bytes_to_base64 signature
            public_key := pubkey_to_base58 keypair.pubkey
            message := payload.message }
        error := none }

def verify_message (ed : Ed25519) (payload : VerifyMessageRequest) :
    ApiResponse VerifyMessageResponse :=
  if ¬ payload.validate then mkError "Validation error"
  else
    match base58_to_pubkey payload.pubkey with
    | none => mkError "Invalid public key"
    | some pk =>
      match base64_to_bytes payload.signature with
      | none => mkError "Invalid signature"
      | some signature_bytes =>
        if signature_bytes.length = 64 then
          { success := true
            data := some
              { valid := ed.verify pk (strBytes payload.message) signature_bytes
                message := payload.message
                pubkey := payload.pubkey }
            error := none }
        else mkError "Invalid signature format"

def send_sol (payload : SendSolRequest) : ApiResponse InstructionResponse :=
  if ¬ payload.validate then mkError "Validation error"
  else
    match base58_to_pubkey payload.fromAddr with
    | none => mkError "Invalid from address"
    | some fromPk =>
      match base58_to_pubkey payload.toAddr with
      | none => mkError "Invalid to address"
      | some toPk =>
        let pd := create_transfer_instruction fromPk toPk payload.lamports
        { success := true
          data := some
            { program_id := pubkey_to_base58 pd.1
              accounts :=
                [ { pubkey := pubkey_to_base58 fromPk
                    is_signer := true
                    is_writable := true }
                , { pubkey := pubkey_to_base58 toPk
                    is_signer := false
                    is_writable := true } ]
              instruction_data := bytes_to_base64 pd.2 }
          error := none }

def send_token (payload : SendTokenRequest) : ApiResponse InstructionResponse :=
  if ¬ payload.validate then mkError "Validation error"
  else
    match base58_to_pubkey payload.destination with
    | none => mkError "Invalid destination"
    | some destination =>
      match base58_to_pubkey payload.mint with
      | none => mkError "Invalid mint"
      | some mint =>
        match base58_to_pubkey payload.owner with
        | none => mkError "Invalid owner"
        | some owner =>
          let source := owner
          let pd := create_token_transfer_instruction source destination owner payload.amount
          { success := true
            data := some
              { program_id := pubkey_to_base58 pd.1
                accounts :=
                  [ { pubkey := pubkey_to_base58 source
                      is_signer := false
                      is_writable := true }
                  , { pubkey := pubkey_to_base58 destination
                      is_signer := false
                      is_writable := true }
                  , { pubkey := pubkey_to_base58 owner
                      is_signer := true
                      is_writable := false } ]
                instruction_data := bytes_to_base64 pd.2 }
            error := none }

/-! ### Associated-account derivation -/

/-- Modelled from the spec: the fixed associated-account program identifier.
No derivation code is present under `src/`; §4.4 of the spec names a "fixed
associated-account program identifier" used in the seed tuple. -/
def associated_token_program_id : List Nat :=
  (decodeBase58 "ATokenGPvbdGVxr1b2hvZbsiqW5xWH25efTNsLJA8knL").getD []

/-- Modelled from the spec: the "fixed suffix constant" closing the hashed
seed tuple of the derivation. -/
def pdaMarker : List Nat := strBytes "ProgramDerivedAddress"

/-- Modelled from the spec: the digest of one candidate bump, hashing
owner ∥ mint ∥ token-program-id ∥ bump byte ∥ associated-program-id ∥ suffix
with the cryptographic digest `hash` (external, passed as a parameter). -/
def pdaCandidate (hash : List Nat → List Nat) (owner mint : List Nat)
    (bump : Nat) : List Nat :=
  hash (owner ++ mint ++ token_program_id ++ bump :: (associated_token_program_id ++ pdaMarker))

/-- Modelled from the spec: the bump search.  `fuel` counts the candidate bumps
still unexplored, so fuel `b + 1` tries bump `b` next: starting from fuel 256
tries bumps 255, 254, … and stops at the first candidate digest that fails the
on-curve test; exhausting all bumps is the `DomainError` case, here `none`. -/
def findBumpAux (hash : List Nat → List Nat) (onCurve : List Nat → Bool)
    (owner mint : List Nat) : Nat → Option (List Nat × Nat)
  | 0 => none
  | fuel + 1 =>
    let addr := pdaCandidate hash owner mint fuel
    if onCurve addr then findBumpAux hash onCurve owner mint fuel
    else some (addr, fuel)

/-- Modelled from the spec: associated-account derivation for `(owner, mint)`,
a pure function of its inputs, with the digest and on-curve primitives
supplied as parameters. -/
def derive_associated_account (hash : List Nat → List Nat)
    (onCurve : List Nat → Bool) (owner mint : List Nat) : Option (List Nat × Nat) :=
  findBumpAux hash onCurve owner mint 256

theorem findBumpAux_some (hash : List Nat → List Nat) (onCurve : List Nat → Bool)
    (owner mint : List Nat) :
    ∀ fuel addr bump, findBumpAux hash onCurve owner mint fuel = some (addr, bump) →
      bump < fuel ∧ addr = pdaCandidate hash owner mint bump ∧
        onCurve addr = false ∧
        ∀ b, bump < b → b < fuel → onCurve (pdaCandidate hash owner mint b) = true := by
  intro fuel
  induction fuel with
  | zero => intro addr bump h; simp [findBumpAux] at h
  | succ m ih =>
    intro addr bump h
    simp only [findBumpAux] at h
    by_cases hc : onCurve (pdaCandidate hash owner mint m) = true
    · rw [if_pos hc] at h
      obtain ⟨h1, h2, h3, h4⟩ := ih addr bump h
      refine ⟨by omega, h2, h3, ?_⟩
      intro b hb1 hb2
      by_cases hbm : b = m
      · subst hbm; exact hc
      · exact h4 b hb1 (by omega)
    · rw [if_neg hc] at h
      simp only [Option.some.injEq, Prod.mk.injEq] at h
      obtain ⟨h1, h2⟩ := h
      subst h2
      refine ⟨by omega, h1.symm, ?_, ?_⟩
      · rw [← h1]; simpa using hc
      · intro b hb1 hb2; omega

theorem findBumpAux_none (hash : List Nat → List Nat) (onCurve : List Nat → Bool)
    (owner mint : List Nat) :
    ∀ fuel, findBumpAux hash onCurve owner mint fuel = none →
      ∀ b, b < fuel → onCurve (pdaCandidate hash owner mint b) = true := by
  intro fuel
  induction fuel with
  | zero => intro _ b hb; omega
  | succ m ih =>
    intro h b hb
    simp only [findBumpAux] at h
    by_cases hc : onCurve (pdaCandidate hash owner mint m) = true
    · rw [if_pos hc] at h
      by_cases hbm : b = m
      · subst hbm; exact hc
      · exact ih h b (by omega)
    · rw [if_neg hc] at h
      simp at h

/-! ### Concrete keys used by counterexamples and witnesses -/

/-- Base58 text of the 32-zero-byte key. -/
def k32zero : String := "11111111111111111111111111111111"

/-- Base58 text of the 32-byte key `0,…,0,1`. -/
def k32one : String := "11111111111111111111111111111112"

/-! ### Claims -/

/-- Claim C1, counterexample: a token-transfer request whose owner (used by the
builder as the source token account) and destination are the same key is not
rejected: `send_token` succeeds, produces an instruction, and its source and
destination accounts carry the same key. -/
theorem C1_counterexample :
    (send_token ⟨k32zero, k32zero, k32zero, 1⟩).success = true ∧
      (send_token ⟨k32zero, k32zero, k32zero, 1⟩).data ≠ none ∧
      ((send_token ⟨k32zero, k32zero, k32zero, 1⟩).data.map
        fun d => d.accounts.map fun a => a.pubkey) =
        some [k32zero, k32zero, k32zero] := by
  decide

/-- Claim C1 as amended: `send_token` performs no source/destination equality
check: for every request passing validation whose owner and destination parse
to the same key, the operation succeeds and produces a token-transfer
instruction whose source and destination accounts are that key, instead of
failing with a `DomainError`. -/
theorem C1_amended_no_equality_check (p : SendTokenRequest) (k mintPk : List Nat)
    (hval : p.validate = true)
    (hdest : base58_to_pubkey p.destination = some k)
    (hmint : base58_to_pubkey p.mint = some mintPk)
    (howner : base58_to_pubkey p.owner = some k) :
    send_token p =
      { success := true
        data := some
          { program_id := pubkey_to_base58 token_program_id
            accounts :=
              [ ⟨pubkey_to_base58 k, false, true⟩
              , ⟨pubkey_to_base58 k, false, true⟩
              , ⟨pubkey_to_base58 k, true, false⟩ ]
            instruction_data := bytes_to_base64 (3 :: leBytes 8 p.amount) }
        error := none } := by
  unfold send_token
  simp [hval, hdest, hmint, howner, create_token_transfer_instruction]

theorem C1_witness :
    (⟨k32zero, k32zero, k32zero, 1⟩ : SendTokenRequest).validate = true ∧
      send_token ⟨k32zero, k32zero, k32zero, 1⟩ =
        { success := true
          data := some
            { program_id := pubkey_to_base58 token_program_id
              accounts :=
                [ ⟨pubkey_to_base58 (List.replicate 32 0), false, true⟩
                , ⟨pubkey_to_base58 (List.replicate 32 0), false, true⟩
                , ⟨pubkey_to_base58 (List.replicate 32 0), true, false⟩ ]
              instruction_data := bytes_to_base64 (3 :: leBytes 8 1) }
          error := none } :=
  ⟨by decide,
    C1_amended_no_equality_check ⟨k32zero, k32zero, k32zero, 1⟩
      (List.replicate 32 0) (List.replicate 32 0)
      (by decide) (by decide) (by decide) (by decide)⟩

/-- Claim C2, counterexample: an initialize-mint request with `decimals = 10`
(outside 0–9) is accepted: validation allows any decimals up to 18, so the
operation succeeds and produces an instruction. -/
theorem C2_counterexample :
    (create_token ⟨k32zero, k32zero, 10⟩).success = true ∧
      (create_token ⟨k32zero, k32zero, 10⟩).data ≠ none := by
  decide

/-- Claim C2 as amended: for every initialize-mint request with well-length
keys that parse, the operation succeeds exactly when `decimals ≤ 18`
(the `range(min = 0, max = 18)` validation), and any larger decimals value is
rejected with the validation error envelope before any instruction bytes are
produced. -/
theorem C2_amended_decimals_bound (p : CreateTokenRequest) (ma mintPk : List Nat)
    (hlen1 : lenBetween p.mint_authority 32 44 = true)
    (hlen2 : lenBetween p.mint 32 44 = true)
    (hma : base58_to_pubkey p.mint_authority = some ma)
    (hmint : base58_to_pubkey p.mint = some mintPk) :
    ((create_token p).success = true ↔ p.decimals ≤ 18) ∧
      (18 < p.decimals → create_token p = mkError "Validation error") := by
  by_cases hdec : p.decimals ≤ 18
  · have hval : p.validate = true := by
      simp [CreateTokenRequest.validate, hlen1, hlen2, hdec]
    constructor
    · unfold create_token
      simp [hval, hma, hmint]
      exact hdec
    · intro h; omega
  · have hval : p.validate = false := by
      simp [CreateTokenRequest.validate, hlen1, hlen2, hdec]
    constructor
    · unfold create_token
      simp [hval, mkError]
      omega
    · intro _
      unfold create_token
      simp [hval]

theorem C2_witness :
    (((create_token ⟨k32zero, k32zero, 7⟩).success = true ↔ (7 : Nat) ≤ 18) ∧
      ((18 : Nat) < 7 → create_token ⟨k32zero, k32zero, 7⟩ = mkError "Validation error")) ∧
      (((create_token ⟨k32zero, k32zero, 19⟩).success = true ↔ (19 : Nat) ≤ 18) ∧
        ((18 : Nat) < 19 → create_token ⟨k32zero, k32zero, 19⟩ = mkError "Validation error")) :=
  ⟨C2_amended_decimals_bound ⟨k32zero, k32zero, 7⟩
      (List.replicate 32 0) (List.replicate 32 0)
      (by decide) (by decide) (by decide) (by decide),
    C2_amended_decimals_bound ⟨k32zero, k32zero, 19⟩
      (List.replicate 32 0) (List.replicate 32 0)
      (by decide) (by decide) (by decide) (by decide)⟩

/-- Claim C3, counterexample: a successful initialize-mint response carries two
accounts, not the single `(mint, not-signer, writable)` entry the claim
states. -/
theorem C3_counterexample :
    ((create_token ⟨k32zero, k32zero, 6⟩).data.map fun d => d.accounts.length) =
      some 2 := by
  decide

/-- Claim C3 as amended: every successful initialize-mint response has exactly
the two entries `(mint, not-signer, writable)` and
`(mint authority, signer, not-writable)`, in that order. -/
theorem C3_amended_account_list (p : CreateTokenRequest) (ma mintPk : List Nat)
    (hval : p.validate = true)
    (hma : base58_to_pubkey p.mint_authority = some ma)
    (hmint : base58_to_pubkey p.mint = some mintPk) :
    create_token p =
      { success := true
        data := some
          { program_id := pubkey_to_base58 token_program_id
            accounts :=
              [ ⟨pubkey_to_base58 mintPk, false, true⟩
              , ⟨pubkey_to_base58 ma, true, false⟩ ]
            instruction_data :=
              bytes_to_base64 (0 :: p.decimals :: (ma ++ 1 :: ma)) }
        error := none } := by
  unfold create_token
  simp [hval, hma, hmint, create_initialize_mint_instruction]

theorem C3_witness :
    (⟨k32zero, k32zero, 6⟩ : CreateTokenRequest).validate = true ∧
      create_token ⟨k32zero, k32zero, 6⟩ =
        { success := true
          data := some
            { program_id := pubkey_to_base58 token_program_id
              accounts :=
                [ ⟨pubkey_to_base58 (List.replicate 32 0), false, true⟩
                , ⟨pubkey_to_base58 (List.replicate 32 0), true, false⟩ ]
              instruction_data :=
                bytes_to_base64
                  (0 :: 6 :: (List.replicate 32 0 ++ 1 :: List.replicate 32 0)) }
          error := none } :=
  ⟨by decide,
    C3_amended_account_list ⟨k32zero, k32zero, 6⟩
      (List.replicate 32 0) (List.replicate 32 0)
      (by decide) (by decide) (by decide)⟩

/-- Claim C4: a native-transfer request with distinct parsed keys and
`lamports = 1_000_000_000` succeeds with the fixed native-transfer program id,
the data bytes `[2,0,0,0,0,202,154,59,0,0,0,0]`, and the accounts
`(from, signer, writable)`, `(to, not-signer, writable)` in that order. -/
theorem C4_native_transfer (f t : String) (fk tk : List Nat)
    (hlen1 : lenBetween f 32 44 = true)
    (hlen2 : lenBetween t 32 44 = true)
    (hf : base58_to_pubkey f = some fk)
    (ht : base58_to_pubkey t = some tk)
    (hne : fk ≠ tk) :
    send_sol ⟨f, t, 1000000000⟩ =
      { success := true
        data := some
          { program_id := pubkey_to_base58 system_program_id
            accounts :=
              [ ⟨pubkey_to_base58 fk, true, true⟩
              , ⟨pubkey_to_base58 tk, false, true⟩ ]
            instruction_data :=
              bytes_to_base64 [2, 0, 0, 0, 0, 202, 154, 59, 0, 0, 0, 0] }
        error := none } := by
  have hval : (⟨f, t, 1000000000⟩ : SendSolRequest).validate = true := by
    simp [SendSolRequest.validate, hlen1, hlen2]
  have hdata : leBytes 4 2 ++ leBytes 8 1000000000 =
      [2, 0, 0, 0, 0, 202, 154, 59, 0, 0, 0, 0] := by decide
  unfold send_sol
  simp [hval, hf, ht, create_transfer_instruction, hdata]

theorem C4_witness :
    send_sol ⟨k32zero, k32one, 1000000000⟩ =
      { success := true
        data := some
          { program_id := pubkey_to_base58 system_program_id
            accounts :=
              [ ⟨pubkey_to_base58 (List.replicate 32 0), true, true⟩
              , ⟨pubkey_to_base58 (List.replicate 31 0 ++ [1]), false, true⟩ ]
            instruction_data :=
              bytes_to_base64 [2, 0, 0, 0, 0, 202, 154, 59, 0, 0, 0, 0] }
        error := none } :=
  C4_native_transfer k32zero k32one (List.replicate 32 0) (List.replicate 31 0 ++ [1])
    (by decide) (by decide) (by decide) (by decide) (by decide)

/-- Claim C5: a mint-to request with `amount = 0` fails with the validation
(domain) error envelope, while `amount = 1` succeeds with an instruction data
payload of exactly 9 bytes: tag 7 followed by the 8-byte little-endian
amount. -/
theorem C5_mint_amounts (m d a : String) (mk dk ak : List Nat)
    (hlen1 : lenBetween m 32 44 = true)
    (hlen2 : lenBetween d 32 44 = true)
    (hlen3 : lenBetween a 32 44 = true)
    (hm : base58_to_pubkey m = some mk)
    (hd : base58_to_pubkey d = some dk)
    (ha : base58_to_pubkey a = some ak) :
    mint_token ⟨m, d, a, 0⟩ = mkError "Validation error" ∧
      mint_token ⟨m, d, a, 1⟩ =
        { success := true
          data := some
            { program_id := pubkey_to_base58 token_program_id
              accounts :=
                [ ⟨pubkey_to_base58 mk, false, true⟩
                , ⟨pubkey_to_base58 dk, false, true⟩
                , ⟨pubkey_to_base58 ak, true, false⟩ ]
              instruction_data := bytes_to_base64 (7 :: leBytes 8 1) }
          error := none } ∧
      (7 :: leBytes 8 1).length = 9 := by
  refine ⟨?_, ?_, by decide⟩
  · have hval : (⟨m, d, a, 0⟩ : MintTokenRequest).validate = false := by
      simp [MintTokenRequest.validate]
    unfold mint_token
    simp [hval]
  · have hval : (⟨m, d, a, 1⟩ : MintTokenRequest).validate = true := by
      simp [MintTokenRequest.validate, hlen1, hlen2, hlen3]
    unfold mint_token
    simp [hval, hm, hd, ha, create_mint_instruction]

theorem C5_witness :
    mint_token ⟨k32zero, k32zero, k32zero, 0⟩ = mkError "Validation error" ∧
      mint_token ⟨k32zero, k32zero, k32zero, 1⟩ =
        { success := true
          data := some
            { program_id := pubkey_to_base58 token_program_id
              accounts :=
                [ ⟨pubkey_to_base58 (List.replicate 32 0), false, true⟩
                , ⟨pubkey_to_base58 (List.replicate 32 0), false, true⟩
                , ⟨pubkey_to_base58 (List.replicate 32 0), true, false⟩ ]
              instruction_data := bytes_to_base64 (7 :: leBytes 8 1) }
          error := none } ∧
      (7 :: leBytes 8 1).length = 9 :=
  C5_mint_amounts k32zero k32zero k32zero
    (List.replicate 32 0) (List.replicate 32 0) (List.replicate 32 0)
    (by decide) (by decide) (by decide) (by decide) (by decide) (by decide)

/-- Claim C6: for every well-formed verification request — one passing
presentation validation whose public key parses to 32 bytes and whose
signature text base64-decodes to exactly 64 bytes — `verify_message` returns
the success envelope carrying the boolean verdict of the ed25519 check
(`ed.verify`), never an error; in particular a syntactically valid but
incorrect signature yields `valid = false`, not a failure response. -/
theorem C6_verify_never_errors (ed : Ed25519) (p : VerifyMessageRequest)
    (pk sig : List Nat)
    (hval : p.validate = true)
    (hpk : base58_to_pubkey p.pubkey = some pk)
    (hsig : base64_to_bytes p.signature = some sig)
    (hlen : sig.length = 64) :
    verify_message ed p =
      { success := true
        data := some
          { valid := ed.verify pk (strBytes p.message) sig
            message := p.message
            pubkey := p.pubkey }
        error := none } := by
  unfold verify_message
  simp [hval, hpk, hsig, hlen]

/-- A concrete ed25519 stand-in used only to instantiate witnesses. -/
def edSample : Ed25519 where
  pubOf := fun sk => sk
  sign := fun sk _ => sk ++ sk
  verify := fun pk _ sig => sig == pk ++ pk
  onCurve := fun _ => true

theorem C6_witness :
    verify_message edSample
        ⟨"m", bytes_to_base64 (List.replicate 64 0), k32zero⟩ =
      { success := true
        data := some
          { valid := edSample.verify (List.replicate 32 0)
              (strBytes "m") (List.replicate 64 0)
            message := "m"
            pubkey := k32zero }
        error := none } :=
  C6_verify_never_errors edSample
    ⟨"m", bytes_to_base64 (List.replicate 64 0), k32zero⟩
    (List.replicate 32 0) (List.replicate 64 0)
    (by decide) (by decide) (by decide) (by decide)

/-- Claim C7: every generated keypair consists of a 32-byte public key and a
64-byte secret whose last 32 bytes equal that public key, and the response
returns the public key as base58 text and the secret as base58 text of the
full 64 bytes. -/
theorem C7_keypair_shape (ed : Ed25519) (seed : List Nat)
    (hseed : seed.length = 32)
    (hpub : (ed.pubOf seed).length = 32) :
    generate_keypair ed seed =
      { success := true
        data := some
          { pubkey := encodeBase58 (ed.pubOf seed)
            secret := encodeBase58 (seed ++ ed.pubOf seed) }
        error := none } ∧
      (seed ++ ed.pubOf seed).length = 64 ∧
      (seed ++ ed.pubOf seed).drop 32 = ed.pubOf seed ∧
      (ed.pubOf seed).length = 32 := by
  refine ⟨rfl, ?_, ?_, hpub⟩
  · simp [List.length_append, hseed, hpub]
  · rw [← hseed]
    exact List.drop_left seed (ed.pubOf seed)

theorem C7_witness :
    generate_keypair edSample (List.replicate 32 0) =
      { success := true
        data := some
          { pubkey := encodeBase58 (edSample.pubOf (List.replicate 32 0))
            secret := encodeBase58
              (List.replicate 32 0 ++ edSample.pubOf (List.replicate 32 0)) }
        error := none } ∧
      (List.replicate 32 0 ++ edSample.pubOf (List.replicate 32 0)).length = 64 ∧
      (List.replicate 32 0 ++ edSample.pubOf (List.replicate 32 0)).drop 32 =
        edSample.pubOf (List.replicate 32 0) ∧
      (edSample.pubOf (List.replicate 32 0)).length = 32 :=
  C7_keypair_shape edSample (List.replicate 32 0) (by decide) (by decide)

theorem enc64core_length_pos (bs : List Nat) (h : bs ≠ []) :
    0 < (enc64core bs).length := by
  cases bs with
  | nil => exact absurd rfl h
  | cons a t =>
    cases t with
    | nil => simp [enc64core]
    | cons b t2 =>
      cases t2 with
      | nil => simp [enc64core]
      | cons c rest => simp [enc64core]

/-- Claim C8: for every valid keypair (a 32-byte secret with its derived
32-byte public key, accepted by the curve check) and every non-empty message,
signing through `sign_message` and then verifying the produced response fields
through `verify_message` yields `valid = true`; the signature round-trips
through its base64 text between the two operations, the public key through its
base58 text.  The external ed25519 primitives enter as `ed` together with
their correctness property `hcorrect`; the string-length side conditions are
the presentation-validation bounds the handlers impose. -/
theorem C8_sign_then_verify (ed : Ed25519) (sk : List Nat) (m : String)
    (hsk : sk.length = 32)
    (hskb : ∀ x ∈ sk, x < 256)
    (hpub : (ed.pubOf sk).length = 32)
    (hpubb : ∀ x ∈ ed.pubOf sk, x < 256)
    (hsig : (ed.sign sk (strBytes m)).length = 64)
    (hsigb : ∀ x ∈ ed.sign sk (strBytes m), x < 256)
    (hcurve : ed.onCurve (ed.pubOf sk) = true)
    (hcorrect : ed.verify (ed.pubOf sk) (strBytes m) (ed.sign sk (strBytes m)) = true)
    (hm : 1 ≤ m.length)
    (hslen : 32 ≤ (encodeBase58 (sk ++ ed.pubOf sk)).length)
    (hplen : lenBetween (encodeBase58 (ed.pubOf sk)) 32 44 = true) :
    sign_message ed ⟨m, encodeBase58 (sk ++ ed.pubOf sk)⟩ =
      { success := true
        data := some
          { signature := bytes_to_base64 (ed.sign sk (strBytes m))
            public_key := encodeBase58 (ed.pubOf sk)
            message := m }
        error := none } ∧
      verify_message ed
          ⟨m, bytes_to_base64 (ed.sign sk (strBytes m)), encodeBase58 (ed.pubOf sk)⟩ =
        { success := true
          data := some
            { valid := true
              message := m
              pubkey := encodeBase58 (ed.pubOf sk) }
          error := none } := by
  have hbytes : ∀ x ∈ sk ++ ed.pubOf sk, x < 256 := by
    intro x hx
    rcases List.mem_append.mp hx with hx | hx
    · exact hskb x hx
    · exact hpubb x hx
  have hdec : decodeBase58 (encodeBase58 (sk ++ ed.pubOf sk)) = some (sk ++ ed.pubOf sk) :=
    decodeBase58_encodeBase58 _ hbytes
  have hlen64 : (sk ++ ed.pubOf sk).length = 64 := by
    simp [List.length_append, hsk, hpub]
  have hdrop : (sk ++ ed.pubOf sk).drop 32 = ed.pubOf sk := by
    rw [← hsk]; exact List.drop_left sk (ed.pubOf sk)
  have htake : (sk ++ ed.pubOf sk).take 32 = sk := by
    rw [← hsk]; exact List.take_left sk (ed.pubOf sk)
  have hkp : base58_to_keypair ed (encodeBase58 (sk ++ ed.pubOf sk)) =
      some ⟨sk, ed.pubOf sk⟩ := by
    unfold base58_to_keypair
    rw [hdec]
    simp [hlen64, hdrop, htake, hcurve]
  have hval1 : (⟨m, encodeBase58 (sk ++ ed.pubOf sk)⟩ : SignMessageRequest).validate
      = true := by
    simp [SignMessageRequest.validate, hm, hslen]
  constructor
  · unfold sign_message
    simp [hval1, hkp, Keypair.pubkey, pubkey_to_base58]
  · have hsne : ed.sign sk (strBytes m) ≠ [] := by
      intro hnil
      rw [hnil] at hsig
      simp at hsig
    have hvs : 1 ≤ (bytes_to_base64 (ed.sign sk (strBytes m))).length := by
      have := enc64core_length_pos _ hsne
      simpa [bytes_to_base64, String.length] using this
    have hval2 : (⟨m, bytes_to_base64 (ed.sign sk (strBytes m)),
        encodeBase58 (ed.pubOf sk)⟩ : VerifyMessageRequest).validate = true := by
      simp [VerifyMessageRequest.validate, hm, hvs, hplen]
    have h44 : ¬ 44 < (encodeBase58 (ed.pubOf sk)).length := by
      simp only [lenBetween, decide_eq_true_eq] at hplen
      omega
    have hpk : base58_to_pubkey (encodeBase58 (ed.pubOf sk)) = some (ed.pubOf sk) := by
      unfold base58_to_pubkey
      rw [if_neg h44, decodeBase58_encodeBase58 _ hpubb]
      simp [hpub]
    have hs64 : base64_to_bytes (bytes_to_base64 (ed.sign sk (strBytes m))) =
        some (ed.sign sk (strBytes m)) :=
      base64_to_bytes_bytes_to_base64 _ hsigb
    unfold verify_message
    simp [hval2, hpk, hs64, hsig, hcorrect]

set_option maxRecDepth 8000 in
theorem C8_witness :
    sign_message edSample
        ⟨"hi", encodeBase58 (List.replicate 32 0 ++ edSample.pubOf (List.replicate 32 0))⟩ =
      { success := true
        data := some
          { signature :=
              bytes_to_base64 (edSample.sign (List.replicate 32 0) (strBytes "hi"))
            public_key := encodeBase58 (edSample.pubOf (List.replicate 32 0))
            message := "hi" }
        error := none } ∧
      verify_message edSample
          ⟨"hi", bytes_to_base64 (edSample.sign (List.replicate 32 0) (strBytes "hi")),
            encodeBase58 (edSample.pubOf (List.replicate 32 0))⟩ =
        { success := true
          data := some
            { valid := true
              message := "hi"
              pubkey := encodeBase58 (edSample.pubOf (List.replicate 32 0)) }
          error := none } :=
  C8_sign_then_verify edSample (List.replicate 32 0) "hi"
    (by decide) (by decide) (by decide) (by decide) (by decide) (by decide)
    (by decide) (by decide) (by decide) (by decide) (by decide)

/-- Claim C9: associated-account derivation is a deterministic pure function of
`(owner, mint)`: repeated derivations agree; a produced address is the digest
of the seed tuple at its bump, fails the on-curve test, and every bump above
it (searched first, from 255 downwards) was still on-curve; and when every
bump in 255…0 stays on-curve the derivation fails (`none`, the `DomainError`
case). -/
theorem C9_derivation (hash : List Nat → List Nat) (onCurve : List Nat → Bool)
    (owner mint : List Nat) :
    derive_associated_account hash onCurve owner mint =
        derive_associated_account hash onCurve owner mint ∧
      (∀ addr bump,
        derive_associated_account hash onCurve owner mint = some (addr, bump) →
          onCurve addr = false ∧
          addr = pdaCandidate hash owner mint bump ∧
          bump ≤ 255 ∧
          ∀ b, bump < b → b ≤ 255 →
            onCurve (pdaCandidate hash owner mint b) = true) ∧
      (derive_associated_account hash onCurve owner mint = none →
        ∀ b, b ≤ 255 → onCurve (pdaCandidate hash owner mint b) = true) := by
  refine ⟨rfl, ?_, ?_⟩
  · intro addr bump h
    obtain ⟨h1, h2, h3, h4⟩ := findBumpAux_some hash onCurve owner mint 256 addr bump h
    exact ⟨h3, h2, by omega, fun b hb1 hb2 => h4 b hb1 (by omega)⟩
  · intro h b hb
    exact findBumpAux_none hash onCurve owner mint 256 h b (by omega)

/-- A trivially off-curve stand-in pair used only to instantiate the C9
witness: the digest returns the empty list and the curve test always fails. -/
def hashSample : List Nat → List Nat := fun _ => []

def curveSample : List Nat → Bool := fun _ => false

theorem C9_witness :
    curveSample (pdaCandidate hashSample [] [] 255) = false ∧
      pdaCandidate hashSample [] [] 255 = pdaCandidate hashSample [] [] 255 ∧
      255 ≤ 255 := by
  have h := (C9_derivation hashSample curveSample [] []).2.1
    (pdaCandidate hashSample [] [] 255) 255 (by decide)
  exact ⟨h.1, h.2.1, h.2.2.1⟩

/-- The response-envelope invariant of `ApiResponse`: data exactly on success,
error exactly on failure, never both, never neither. -/
def envelopeOk {T : Type} (r : ApiResponse T) : Prop :=
  (r.success = true ∧ r.data ≠ none ∧ r.error = none) ∨
    (r.success = false ∧ r.data = none ∧ r.error ≠ none)

/-- Claim C10: every response of every handler satisfies the envelope
invariant: success responses carry data and no error, failure responses carry
an error and no data. -/
theorem C10_envelope_invariant (ed : Ed25519) (seed : List Nat)
    (p1 : CreateTokenRequest) (p2 : MintTokenRequest) (p3 : SignMessageRequest)
    (p4 : VerifyMessageRequest) (p5 : SendSolRequest) (p6 : SendTokenRequest) :
    envelopeOk (generate_keypair ed seed) ∧
      envelopeOk (create_token p1) ∧
      envelopeOk (mint_token p2) ∧
      envelopeOk (sign_message ed p3) ∧
      envelopeOk (verify_message ed p4) ∧
      envelopeOk (send_sol p5) ∧
      envelopeOk (send_token p6) := by
  refine ⟨?_, ?_, ?_, ?_, ?_, ?_, ?_⟩
  · exact Or.inl ⟨rfl, by simp [generate_keypair], rfl⟩
  · unfold create_token
    repeat' split
    all_goals simp [envelopeOk, mkError]
  · unfold mint_token
    repeat' split
    all_goals simp [envelopeOk, mkError]
  · unfold sign_message
    repeat' split
    all_goals simp [envelopeOk, mkError]
  · unfold verify_message
    repeat' split
    all_goals simp [envelopeOk, mkError]
  · unfold send_sol
    repeat' split
    all_goals simp [envelopeOk, mkError]
  · unfold send_token
    repeat' split
    all_goals simp [envelopeOk, mkError]

end SuperdevServer
